import Mathlib

/-!
Verification development for the talks-indexer reindexing core
(`internal/app` of the talks-indexer repository).

The orchestration code (`IndexerService` with its three operations
`ReindexAll`, `ReindexConference`, `ReindexTalk` and the helpers
`recreateIndex`, `ensureIndexExists`, `getMappingForIndex`,
`prepareTalksForPrivateIndex`, `filterApprovedTalksForPublic`) is embedded
from the Go source.  The `internal/domain` package (the `Talk` record with
its `ToPrivate` / `ToPublic` projections and `TalkStatus.IsPublic`) is not
part of the provided sources, so those definitions are modelled from the
specification, as marked in their doc comments.

Gateways are embedded as oracles: a `TalkSource` gives the outcome of each
source fetch, a `SearchIndex` gives the outcome of each search-gateway
call.  Every operation returns the ordered trace of search-gateway calls
it issued together with its `Except`-style result, so that temporal claims
(call order, calls never made) become statements about the trace.
-/

namespace TalksIndexer

/-- Values of the open `data` / `privateData` mappings.  In the Go source
these are dynamically typed (`map[string]interface{}`); the payload is
uninterpreted by the core, so it is modelled as an opaque string. -/
abbrev Value := String

/-- An open field-name-to-value mapping (`map[string]interface{}` in Go),
modelled as an association list. -/
abbrev OpenMap := List (String × Value)

/-- Lookup of a key in an open mapping (Go map read `m[k]`). -/
def mapLookup (m : OpenMap) (k : String) : Option Value :=
  match m with
  | [] => none
  | p :: rest => if p.1 = k then some p.2 else mapLookup rest k

/-- Write of a key in an open mapping (Go map write `m[k] = v`):
replaces the binding when the key is present, appends it otherwise. -/
def mapSet (m : OpenMap) (k : String) (v : Value) : OpenMap :=
  match m with
  | [] => [(k, v)]
  | p :: rest => if p.1 = k then (k, v) :: mapSet rest k v else p :: mapSet rest k v

/-- Overlay `over` on top of `base` (Go:
`for k, v := range over { base[k] = v }` on a copy of `base`). -/
def mapMerge (base over : OpenMap) : OpenMap :=
  over.foldl (fun acc p => mapSet acc p.1 p.2) base

/-- The key set of an open mapping. -/
def mapKeys (m : OpenMap) : List String :=
  m.map Prod.fst

/-- A conference record (`domain.Conference`): identity, name and the
URL-safe `slug` used for conference-scoped lookups. -/
structure Conference where
  id : String
  name : String
  slug : String
deriving DecidableEq, Repr

/-- A speaker record (`domain.Speaker`): identity, name and an open
mapping of public-safe speaker attributes. -/
structure Speaker where
  id : String
  name : String
  data : OpenMap
deriving DecidableEq, Repr

/-- A talk record (`domain.Talk`): identity, owning conference, lifecycle
`status`, the public-safe open mapping `data`, the administration-only
open mapping `privateData`, its speakers and timestamps. -/
structure Talk where
  id : String
  conferenceID : String
  conferenceSlug : String
  status : String
  data : OpenMap
  privateData : OpenMap
  speakers : List Speaker
  created : String
  lastUpdated : String
deriving DecidableEq, Repr

/-- The lifecycle status of a talk (`domain.TalkStatus`, a string type). -/
abbrev TalkStatus := String

/-- The single approved-state status value. -/
def StatusApproved : TalkStatus := "APPROVED"

/-- Modelled from the spec: `domain.TalkStatus.IsPublic` is not in the
provided sources.  "A talk is publicly visible if and only if its status
equals the single approved-state value.  This is a strict, case-sensitive
equality" — the publicly-visible set is the singleton `APPROVED`. -/
def TalkStatus.IsPublic (s : TalkStatus) : Bool :=
  s = StatusApproved

/-- Modelled from the spec: `domain.Talk.ToPrivate` is not in the provided
sources.  "Private projection: `data` overlaid with `privateData` (private
data wins on key collision), `privateData` cleared.  Always produced for
every talk, regardless of status." -/
def Talk.ToPrivate (t : Talk) : Talk :=
  { t with data := mapMerge t.data t.privateData, privateData := [] }

/-- Modelled from the spec: `domain.Talk.ToPublic` is not in the provided
sources.  "Public projection: identical to the private source talk's
`data` with `privateData` omitted entirely." -/
def Talk.ToPublic (t : Talk) : Talk :=
  { t with privateData := [] }

/-- `prepareTalksForPrivateIndex` returns talks with privateData merged
into data (Go: a fresh slice of the same length with
`result[i] = talks[i].ToPrivate()`). -/
def prepareTalksForPrivateIndex (talks : List Talk) : List Talk :=
  talks.map Talk.ToPrivate

/-- `filterApprovedTalksForPublic` returns only approved talks with
private data removed (Go: start from an empty slice, and for each talk
append `talk.ToPublic()` when `TalkStatus(talk.Status).IsPublic()`). -/
def filterApprovedTalksForPublic (talks : List Talk) : List Talk :=
  talks.foldl
    (fun approved talk =>
      if TalkStatus.IsPublic talk.status then approved ++ [talk.ToPublic]
      else approved)
    []

/-- The Source Gateway oracle (`ports.TalkSource`): the outcome each
fetch call would return in this run.  Errors are the error strings carried
by Go `error` values. -/
structure TalkSource where
  GetConferences : Except String (List Conference)
  GetTalks : String → Except String (List Talk)
  GetTalk : String → Except String Talk

/-- The Search Gateway oracle (`ports.SearchIndex`): the outcome each
call would return in this run.  `none` is a nil error, `some e` an error
with message `e`. -/
structure SearchIndex where
  BulkIndex : String → List Talk → Option String
  DeleteIndex : String → Option String
  CreateIndex : String → String → Option String
  IndexExists : String → Except String Bool

/-- One call issued to the Search Gateway, with its arguments.  The
operations below return the ordered list of these calls as their trace. -/
inductive SearchCall where
  | DeleteIndex (indexName : String)
  | CreateIndex (indexName : String) (mapping : String)
  | IndexExists (indexName : String)
  | BulkIndex (indexName : String) (talks : List Talk)
deriving DecidableEq, Repr

/-- `app.IndexerService`: the two gateways plus the configured index
names and mapping definitions. -/
structure IndexerService where
  source : TalkSource
  searchIndex : SearchIndex
  privateIndex : String
  publicIndex : String
  privateIndexMapping : String
  publicIndexMapping : String

/-- `getMappingForIndex` returns the appropriate mapping for the given
index name. -/
def getMappingForIndex (s : IndexerService) (indexName : String) : String :=
  if indexName = s.privateIndex then s.privateIndexMapping
  else s.publicIndexMapping

/-- The trace-and-result type of every orchestration step: the ordered
Search Gateway calls it issued, and its `error`-typed return value. -/
abbrev IndexerRun := List SearchCall × Except String Unit

/-- `recreateIndex` deletes and recreates an index with the appropriate
mapping. -/
def recreateIndex (s : IndexerService) (indexName : String) : IndexerRun :=
  match s.searchIndex.DeleteIndex indexName with
  | some e =>
    ([SearchCall.DeleteIndex indexName],
     Except.error ("failed to delete index " ++ indexName ++ ": " ++ e))
  | none =>
    match s.searchIndex.CreateIndex indexName (getMappingForIndex s indexName) with
    | some e =>
      ([SearchCall.DeleteIndex indexName,
        SearchCall.CreateIndex indexName (getMappingForIndex s indexName)],
       Except.error ("failed to create index " ++ indexName ++ ": " ++ e))
    | none =>
      ([SearchCall.DeleteIndex indexName,
        SearchCall.CreateIndex indexName (getMappingForIndex s indexName)],
       Except.ok ())

/-- `ensureIndexExists` creates the index if it does not exist. -/
def ensureIndexExists (s : IndexerService) (indexName : String) : IndexerRun :=
  match s.searchIndex.IndexExists indexName with
  | Except.error e =>
    ([SearchCall.IndexExists indexName],
     Except.error ("failed to check if index exists: " ++ e))
  | Except.ok true =>
    ([SearchCall.IndexExists indexName], Except.ok ())
  | Except.ok false =>
    match s.searchIndex.CreateIndex indexName (getMappingForIndex s indexName) with
    | some e =>
      ([SearchCall.IndexExists indexName,
        SearchCall.CreateIndex indexName (getMappingForIndex s indexName)],
       Except.error ("failed to create index " ++ indexName ++ ": " ++ e))
    | none =>
      ([SearchCall.IndexExists indexName,
        SearchCall.CreateIndex indexName (getMappingForIndex s indexName)],
       Except.ok ())

/-- The talk-collection loop of `ReindexAll`: for each conference fetch
its talks; on error log and skip the conference, otherwise append its
talks to the aggregate. -/
def collectAllTalks (source : TalkSource) (conferences : List Conference) : List Talk :=
  conferences.foldl
    (fun allTalks conf =>
      match source.GetTalks conf.id with
      | Except.error _ => allTalks
      | Except.ok talks => allTalks ++ talks)
    []

/-- `ReindexAll` fetches all conferences and their talks, then indexes
them to both private (all talks) and public (only approved talks)
indexes, after deleting and recreating both indexes. -/
def ReindexAll (s : IndexerService) : IndexerRun :=
  match s.source.GetConferences with
  | Except.error e => ([], Except.error ("failed to fetch conferences: " ++ e))
  | Except.ok conferences =>
    match recreateIndex s s.privateIndex with
    | (tr1, Except.error e) =>
      (tr1, Except.error ("failed to recreate private index: " ++ e))
    | (tr1, Except.ok _) =>
      match recreateIndex s s.publicIndex with
      | (tr2, Except.error e) =>
        (tr1 ++ tr2, Except.error ("failed to recreate public index: " ++ e))
      | (tr2, Except.ok _) =>
        match collectAllTalks s.source conferences with
        | [] => (tr1 ++ tr2, Except.ok ())
        | allTalks =>
          match s.searchIndex.BulkIndex s.privateIndex
              (prepareTalksForPrivateIndex allTalks) with
          | some e =>
            (tr1 ++ tr2 ++
               [SearchCall.BulkIndex s.privateIndex
                  (prepareTalksForPrivateIndex allTalks)],
             Except.error ("failed to index to private index: " ++ e))
          | none =>
            match s.searchIndex.BulkIndex s.publicIndex
                (filterApprovedTalksForPublic allTalks) with
            | some e =>
              (tr1 ++ tr2 ++
                 [SearchCall.BulkIndex s.privateIndex
                    (prepareTalksForPrivateIndex allTalks),
                  SearchCall.BulkIndex s.publicIndex
                    (filterApprovedTalksForPublic allTalks)],
               Except.error ("failed to index to public index: " ++ e))
            | none =>
              (tr1 ++ tr2 ++
                 [SearchCall.BulkIndex s.privateIndex
                    (prepareTalksForPrivateIndex allTalks),
                  SearchCall.BulkIndex s.publicIndex
                    (filterApprovedTalksForPublic allTalks)],
               Except.ok ())

/-- `ReindexConference` reindexes talks for a specific conference by its
slug, ensuring (not recreating) both indexes first. -/
def ReindexConference (s : IndexerService) (slug : String) : IndexerRun :=
  match s.source.GetConferences with
  | Except.error e => ([], Except.error ("failed to fetch conferences: " ++ e))
  | Except.ok conferences =>
    match conferences.find? (fun conf => conf.slug = slug) with
    | none => ([], Except.error ("conference not found with slug: " ++ slug))
    | some targetConference =>
      match s.source.GetTalks targetConference.id with
      | Except.error e =>
        ([], Except.error ("failed to fetch talks for conference " ++ slug ++ ": " ++ e))
      | Except.ok talks =>
        match ensureIndexExists s s.privateIndex with
        | (tr1, Except.error e) =>
          (tr1, Except.error ("failed to ensure private index exists: " ++ e))
        | (tr1, Except.ok _) =>
          match ensureIndexExists s s.publicIndex with
          | (tr2, Except.error e) =>
            (tr1 ++ tr2, Except.error ("failed to ensure public index exists: " ++ e))
          | (tr2, Except.ok _) =>
            match s.searchIndex.BulkIndex s.privateIndex
                (prepareTalksForPrivateIndex talks) with
            | some e =>
              (tr1 ++ tr2 ++
                 [SearchCall.BulkIndex s.privateIndex
                    (prepareTalksForPrivateIndex talks)],
               Except.error ("failed to index to private index: " ++ e))
            | none =>
              match s.searchIndex.BulkIndex s.publicIndex
                  (filterApprovedTalksForPublic talks) with
              | some e =>
                (tr1 ++ tr2 ++
                   [SearchCall.BulkIndex s.privateIndex
                      (prepareTalksForPrivateIndex talks),
                    SearchCall.BulkIndex s.publicIndex
                      (filterApprovedTalksForPublic talks)],
                 Except.error ("failed to index to public index: " ++ e))
              | none =>
                (tr1 ++ tr2 ++
                   [SearchCall.BulkIndex s.privateIndex
                      (prepareTalksForPrivateIndex talks),
                    SearchCall.BulkIndex s.publicIndex
                      (filterApprovedTalksForPublic talks)],
                 Except.ok ())

/-- `ReindexTalk` reindexes a specific talk by its ID: always writes the
private projection, and writes the public projection only if the talk
status is public. -/
def ReindexTalk (s : IndexerService) (talkID : String) : IndexerRun :=
  match s.source.GetTalk talkID with
  | Except.error e =>
    ([], Except.error ("failed to fetch talk " ++ talkID ++ ": " ++ e))
  | Except.ok targetTalk =>
    match ensureIndexExists s s.privateIndex with
    | (tr1, Except.error e) =>
      (tr1, Except.error ("failed to ensure private index exists: " ++ e))
    | (tr1, Except.ok _) =>
      match ensureIndexExists s s.publicIndex with
      | (tr2, Except.error e) =>
        (tr1 ++ tr2, Except.error ("failed to ensure public index exists: " ++ e))
      | (tr2, Except.ok _) =>
        match s.searchIndex.BulkIndex s.privateIndex [targetTalk.ToPrivate] with
        | some e =>
          (tr1 ++ tr2 ++ [SearchCall.BulkIndex s.privateIndex [targetTalk.ToPrivate]],
           Except.error ("failed to index to private index: " ++ e))
        | none =>
          if TalkStatus.IsPublic targetTalk.status then
            match s.searchIndex.BulkIndex s.publicIndex [targetTalk.ToPublic] with
            | some e =>
              (tr1 ++ tr2 ++
                 [SearchCall.BulkIndex s.privateIndex [targetTalk.ToPrivate],
                  SearchCall.BulkIndex s.publicIndex [targetTalk.ToPublic]],
               Except.error ("failed to index to public index: " ++ e))
            | none =>
              (tr1 ++ tr2 ++
                 [SearchCall.BulkIndex s.privateIndex [targetTalk.ToPrivate],
                  SearchCall.BulkIndex s.publicIndex [targetTalk.ToPublic]],
               Except.ok ())
          else
            (tr1 ++ tr2 ++ [SearchCall.BulkIndex s.privateIndex [targetTalk.ToPrivate]],
             Except.ok ())

/-- Whether a Search Gateway call is a bulk write. -/
def isBulkCall : SearchCall → Bool
  | SearchCall.BulkIndex _ _ => true
  | _ => false

/-- The subsequence of bulk-write calls of a trace, in call order. -/
def bulkCalls (tr : List SearchCall) : List SearchCall :=
  tr.filter isBulkCall

/-- The private-write-first discipline of one operation run: either no
bulk write was issued, or the only bulk write went to the private index
(failing with the wrapped error, or succeeding with no public write
needed), or a successful private bulk write was followed by the public
bulk write — never a public write before or without a successful private
write. -/
def BulkWriteOrdered (s : IndexerService) (run : IndexerRun) : Prop :=
  bulkCalls run.1 = []
  ∨ (∃ ts e, bulkCalls run.1 = [SearchCall.BulkIndex s.privateIndex ts]
      ∧ s.searchIndex.BulkIndex s.privateIndex ts = some e
      ∧ run.2 = Except.error ("failed to index to private index: " ++ e))
  ∨ (∃ ts, bulkCalls run.1 = [SearchCall.BulkIndex s.privateIndex ts]
      ∧ s.searchIndex.BulkIndex s.privateIndex ts = none)
  ∨ (∃ ts ts2, bulkCalls run.1
        = [SearchCall.BulkIndex s.privateIndex ts,
           SearchCall.BulkIndex s.publicIndex ts2]
      ∧ s.searchIndex.BulkIndex s.privateIndex ts = none)

/-- The non-destructive index-lifecycle discipline of one scoped
operation run: the trace contains no `DeleteIndex` call; every
`CreateIndex` call was made only because the corresponding existence
check reported the index absent, and with the mapping keyed to that index
name; and the trace splits into a bulk-free prefix and an all-bulk
suffix, the prefix containing the existence checks for both configured
index names whenever any bulk write occurs. -/
def ScopedLifecyclePolicy (s : IndexerService) (run : IndexerRun) : Prop :=
  (∀ n, SearchCall.DeleteIndex n ∉ run.1)
  ∧ (∀ n m, SearchCall.CreateIndex n m ∈ run.1 →
      s.searchIndex.IndexExists n = Except.ok false ∧ m = getMappingForIndex s n)
  ∧ ∃ k, (∀ c ∈ run.1.take k, isBulkCall c = false)
      ∧ (∀ c ∈ run.1.drop k, isBulkCall c = true)
      ∧ (run.1.drop k ≠ [] →
          SearchCall.IndexExists s.privateIndex ∈ run.1.take k
          ∧ SearchCall.IndexExists s.publicIndex ∈ run.1.take k)

/-! ### Concrete fixtures used by the witness theorems -/

/-- An approved talk with one private field, used by witnesses. -/
def wTalkApproved : Talk :=
  { id := "talk-1", conferenceID := "conf-1", conferenceSlug := "jz2024",
    status := "APPROVED", data := [("title", "Talk 1")],
    privateData := [("note", "secret")], speakers := [],
    created := "2024-01-01", lastUpdated := "2024-01-02" }

/-- A submitted (non-public) talk, used by witnesses. -/
def wTalkSubmitted : Talk :=
  { id := "talk-2", conferenceID := "conf-1", conferenceSlug := "jz2024",
    status := "SUBMITTED", data := [("title", "Talk 2")],
    privateData := [("note", "secret2")], speakers := [],
    created := "2024-01-01", lastUpdated := "2024-01-02" }

/-- A source oracle used by witnesses. -/
def wSource : TalkSource :=
  { GetConferences := Except.ok [],
    GetTalks := fun _ => Except.ok [],
    GetTalk := fun _ => Except.error "talk not found" }

/-- A search oracle on which every call succeeds, used by witnesses. -/
def wSearchOk : SearchIndex :=
  { BulkIndex := fun _ _ => none,
    DeleteIndex := fun _ => none,
    CreateIndex := fun _ _ => none,
    IndexExists := fun _ => Except.ok true }

/-- A service with distinct index names, used by witnesses. -/
def wService : IndexerService :=
  { source := wSource, searchIndex := wSearchOk,
    privateIndex := "javazone_private", publicIndex := "javazone_public",
    privateIndexMapping := "private-mapping", publicIndexMapping := "public-mapping" }

/-- A source oracle whose conference fetch fails, used by witnesses. -/
def wSourceConfErr : TalkSource :=
  { GetConferences := Except.error "connection error",
    GetTalks := fun _ => Except.ok [],
    GetTalk := fun _ => Except.error "talk not found" }

/-- A service whose conference fetch fails, used by witnesses. -/
def wServiceConfErr : IndexerService :=
  { wService with source := wSourceConfErr }

/-- A concrete conference, used by witnesses. -/
def wConference : Conference :=
  { id := "conf-1", name := "JavaZone 2024", slug := "javazone2024" }

/-- A source oracle knowing one conference with no talks, used by
witnesses. -/
def wSourceOneConf : TalkSource :=
  { GetConferences := Except.ok [wConference],
    GetTalks := fun _ => Except.ok [],
    GetTalk := fun _ => Except.error "talk not found" }

/-- A service whose source knows one conference, used by witnesses. -/
def wServiceOneConf : IndexerService :=
  { wService with source := wSourceOneConf }

/-- A second concrete conference, used by witnesses. -/
def wConference2 : Conference :=
  { id := "conf-2", name := "Conference 2", slug := "conf2" }

/-- A source oracle for which fetching the first conference's talks fails
while the second yields one approved talk, used by witnesses. -/
def wSourceSkip : TalkSource :=
  { GetConferences := Except.ok [wConference, wConference2],
    GetTalks := fun cid =>
      if cid = "conf-1" then Except.error "error fetching talks"
      else Except.ok [wTalkApproved],
    GetTalk := fun _ => Except.error "talk not found" }

/-- A service over `wSourceSkip`, used by witnesses. -/
def wServiceSkip : IndexerService :=
  { wService with source := wSourceSkip }

/-- A source oracle returning one approved talk by id, used by
witnesses. -/
def wSourceTalk : TalkSource :=
  { GetConferences := Except.ok [],
    GetTalks := fun _ => Except.ok [],
    GetTalk := fun _ => Except.ok wTalkApproved }

/-- A service over `wSourceTalk`, used by witnesses. -/
def wServiceTalk : IndexerService :=
  { wService with source := wSourceTalk }

/-- A service whose two configured index names coincide, used by witnesses. -/
def wServiceSame : IndexerService :=
  { source := wSource, searchIndex := wSearchOk,
    privateIndex := "same", publicIndex := "same",
    privateIndexMapping := "private-mapping", publicIndexMapping := "public-mapping" }

/-! ### Lemmas about open mappings -/

theorem mapLookup_mapSet_self (m : OpenMap) (k : String) (v : Value) :
    mapLookup (mapSet m k v) k = some v := by
  induction m with
  | nil => simp [mapSet, mapLookup]
  | cons p rest ih =>
    by_cases h : p.1 = k
    · simp [mapSet, h, mapLookup]
    · simp [mapSet, h, mapLookup, ih]

theorem mapLookup_mapSet_ne (m : OpenMap) (k k' : String) (v : Value)
    (h : k' ≠ k) : mapLookup (mapSet m k v) k' = mapLookup m k' := by
  induction m with
  | nil => simp [mapSet, mapLookup, Ne.symm h]
  | cons p rest ih =>
    by_cases hp : p.1 = k
    · simp [mapSet, hp, mapLookup, Ne.symm h, ih]
    · by_cases hp' : p.1 = k'
      · simp [mapSet, hp, mapLookup, hp', h, ih]
      · simp [mapSet, hp, mapLookup, hp', ih]

theorem mem_mapKeys_mapSet (m : OpenMap) (k k' : String) (v : Value) :
    k' ∈ mapKeys (mapSet m k v) ↔ k' ∈ mapKeys m ∨ k' = k := by
  induction m with
  | nil => simp [mapSet, mapKeys]
  | cons p rest ih =>
    by_cases h : p.1 = k
    · simp only [mapSet, h, if_pos]
      simp [mapKeys, h] at ih ⊢
      tauto
    · simp only [mapSet, h, if_neg, not_false_iff]
      simp [mapKeys] at ih ⊢
      tauto

theorem mapMerge_cons (base : OpenMap) (p : String × Value) (rest : OpenMap) :
    mapMerge base (p :: rest) = mapMerge (mapSet base p.1 p.2) rest := rfl

theorem mapLookup_mapMerge_of_notMem (base over : OpenMap) (k : String)
    (h : k ∉ mapKeys over) :
    mapLookup (mapMerge base over) k = mapLookup base k := by
  induction over generalizing base with
  | nil => simp [mapMerge]
  | cons p rest ih =>
    simp only [mapKeys, List.map_cons, List.mem_cons, not_or] at h
    rw [mapMerge_cons, ih _ h.2, mapLookup_mapSet_ne _ _ _ _ h.1]

theorem mapLookup_mapMerge_of_mem (base over : OpenMap) (k : String) (v : Value)
    (hnd : (mapKeys over).Nodup) (hmem : (k, v) ∈ over) :
    mapLookup (mapMerge base over) k = some v := by
  induction over generalizing base with
  | nil => simp at hmem
  | cons p rest ih =>
    simp only [mapKeys, List.map_cons, List.nodup_cons] at hnd
    rcases List.mem_cons.mp hmem with hp | hrest
    · rw [mapMerge_cons, ← hp]
      rw [mapLookup_mapMerge_of_notMem]
      · exact mapLookup_mapSet_self base k v
      · rw [← hp] at hnd
        exact hnd.1
    · rw [mapMerge_cons]
      exact ih _ hnd.2 hrest

theorem mem_mapKeys_mapMerge (base over : OpenMap) (k : String) :
    k ∈ mapKeys (mapMerge base over) ↔ k ∈ mapKeys base ∨ k ∈ mapKeys over := by
  induction over generalizing base with
  | nil => simp [mapMerge, mapKeys]
  | cons p rest ih =>
    rw [mapMerge_cons, ih, mem_mapKeys_mapSet]
    simp [mapKeys]
    tauto

/-! ### Lemmas about the projection helpers -/

theorem filterApprovedTalksForPublic_foldl (talks acc : List Talk) :
    talks.foldl
        (fun approved talk =>
          if TalkStatus.IsPublic talk.status then approved ++ [talk.ToPublic]
          else approved)
        acc
      = acc ++ (talks.filter
          (fun t => TalkStatus.IsPublic t.status)).map Talk.ToPublic := by
  induction talks generalizing acc with
  | nil => simp
  | cons t rest ih =>
    by_cases h : TalkStatus.IsPublic t.status
    · simp [List.filter_cons, h, ih]
    · simp [List.filter_cons, h, ih]

theorem filterApprovedTalksForPublic_eq_filter_map (talks : List Talk) :
    filterApprovedTalksForPublic talks
      = (talks.filter (fun t => TalkStatus.IsPublic t.status)).map Talk.ToPublic := by
  rw [filterApprovedTalksForPublic, filterApprovedTalksForPublic_foldl]
  simp

/-! ### Lemmas about traces of the index-lifecycle helpers -/

theorem bulkCalls_append (a b : List SearchCall) :
    bulkCalls (a ++ b) = bulkCalls a ++ bulkCalls b :=
  List.filter_append a b

theorem bulkCalls_recreateIndex (s : IndexerService) (n : String) :
    bulkCalls (recreateIndex s n).1 = [] := by
  cases h : s.searchIndex.DeleteIndex n with
  | some e => simp [recreateIndex, h, bulkCalls, isBulkCall]
  | none =>
    cases h2 : s.searchIndex.CreateIndex n (getMappingForIndex s n) with
    | some e => simp [recreateIndex, h, h2, bulkCalls, isBulkCall]
    | none => simp [recreateIndex, h, h2, bulkCalls, isBulkCall]

theorem ensureIndexExists_shape (s : IndexerService) (n : String) :
    (ensureIndexExists s n).1 = [SearchCall.IndexExists n]
    ∨ ((ensureIndexExists s n).1
        = [SearchCall.IndexExists n,
           SearchCall.CreateIndex n (getMappingForIndex s n)]
       ∧ s.searchIndex.IndexExists n = Except.ok false) := by
  cases h : s.searchIndex.IndexExists n with
  | error e => simp [ensureIndexExists, h]
  | ok b =>
    cases b with
    | true => simp [ensureIndexExists, h]
    | false =>
      cases h2 : s.searchIndex.CreateIndex n (getMappingForIndex s n) with
      | some e => simp [ensureIndexExists, h, h2]
      | none => simp [ensureIndexExists, h, h2]

theorem bulkCalls_ensureIndexExists (s : IndexerService) (n : String) :
    bulkCalls (ensureIndexExists s n).1 = [] := by
  rcases ensureIndexExists_shape s n with h | ⟨h, _⟩ <;>
    simp [h, bulkCalls, isBulkCall]

theorem indexExists_mem_ensureIndexExists (s : IndexerService) (n : String) :
    SearchCall.IndexExists n ∈ (ensureIndexExists s n).1 := by
  rcases ensureIndexExists_shape s n with h | ⟨h, _⟩ <;> simp [h]

theorem deleteIndex_notMem_ensureIndexExists (s : IndexerService) (n k : String) :
    SearchCall.DeleteIndex k ∉ (ensureIndexExists s n).1 := by
  rcases ensureIndexExists_shape s n with h | ⟨h, _⟩ <;> simp [h]

theorem createIndex_mem_ensureIndexExists (s : IndexerService) (n n' m : String)
    (hmem : SearchCall.CreateIndex n' m ∈ (ensureIndexExists s n).1) :
    s.searchIndex.IndexExists n' = Except.ok false
      ∧ m = getMappingForIndex s n' := by
  rcases ensureIndexExists_shape s n with h | ⟨h, habs⟩
  · rw [h] at hmem
    simp at hmem
  · rw [h] at hmem
    simp at hmem
    rcases hmem with ⟨hn, hm⟩
    subst hn
    exact ⟨habs, hm⟩

theorem no_bulk_ensureIndexExists (s : IndexerService) (n : String) :
    ∀ c ∈ (ensureIndexExists s n).1, isBulkCall c = false := by
  rcases ensureIndexExists_shape s n with h | ⟨h, _⟩ <;>
    (rw [h]; intro c hc; simp at hc) <;> first
      | (rw [hc]; rfl)
      | (rcases hc with hc | hc <;> rw [hc] <;> rfl)

theorem reindexTalk_bulkWriteOrdered (s : IndexerService) (talkID : String) :
    BulkWriteOrdered s (ReindexTalk s talkID) := by
  cases hg : s.source.GetTalk talkID with
  | error e =>
    left
    simp [ReindexTalk, hg, bulkCalls]
  | ok t =>
    rcases h1 : ensureIndexExists s s.privateIndex with ⟨tr1, r1⟩
    have htr1 : List.filter isBulkCall tr1 = [] := by
      have h := bulkCalls_ensureIndexExists s s.privateIndex
      rw [h1] at h
      simpa [bulkCalls] using h
    cases r1 with
    | error e1 =>
      left
      simp [ReindexTalk, hg, h1, htr1, bulkCalls]
    | ok u1 =>
      rcases h2 : ensureIndexExists s s.publicIndex with ⟨tr2, r2⟩
      have htr2 : List.filter isBulkCall tr2 = [] := by
        have h := bulkCalls_ensureIndexExists s s.publicIndex
        rw [h2] at h
        simpa [bulkCalls] using h
      cases r2 with
      | error e2 =>
        left
        simp [ReindexTalk, hg, h1, h2, bulkCalls, htr1, htr2]
      | ok u2 =>
        cases hb : s.searchIndex.BulkIndex s.privateIndex [t.ToPrivate] with
        | some e =>
          right; left
          refine ⟨[t.ToPrivate], e, ?_, hb, ?_⟩
          · simp [ReindexTalk, hg, h1, h2, hb, bulkCalls_append, htr1, htr2,
              bulkCalls, isBulkCall]
          · simp [ReindexTalk, hg, h1, h2, hb]
        | none =>
          by_cases hp : TalkStatus.IsPublic t.status
          · cases hb2 : s.searchIndex.BulkIndex s.publicIndex [t.ToPublic] with
            | some e2 =>
              right; right; right
              refine ⟨[t.ToPrivate], [t.ToPublic], ?_, hb⟩
              simp [ReindexTalk, hg, h1, h2, hb, hp, hb2, bulkCalls_append,
                htr1, htr2, bulkCalls, isBulkCall]
            | none =>
              right; right; right
              refine ⟨[t.ToPrivate], [t.ToPublic], ?_, hb⟩
              simp [ReindexTalk, hg, h1, h2, hb, hp, hb2, bulkCalls_append,
                htr1, htr2, bulkCalls, isBulkCall]
          · right; right; left
            refine ⟨[t.ToPrivate], ?_, hb⟩
            simp [ReindexTalk, hg, h1, h2, hb, hp, bulkCalls_append,
              htr1, htr2, bulkCalls, isBulkCall]

theorem reindexConference_bulkWriteOrdered (s : IndexerService) (slug : String) :
    BulkWriteOrdered s (ReindexConference s slug) := by
  cases hg : s.source.GetConferences with
  | error e =>
    left
    simp [ReindexConference, hg, bulkCalls]
  | ok conferences =>
    cases hf : conferences.find? (fun conf => conf.slug = slug) with
    | none =>
      left
      simp [ReindexConference, hg, hf, bulkCalls]
    | some targetConference =>
      cases hts : s.source.GetTalks targetConference.id with
      | error e =>
        left
        simp [ReindexConference, hg, hf, hts, bulkCalls]
      | ok talks =>
        rcases h1 : ensureIndexExists s s.privateIndex with ⟨tr1, r1⟩
        have htr1 : List.filter isBulkCall tr1 = [] := by
          have h := bulkCalls_ensureIndexExists s s.privateIndex
          rw [h1] at h
          simpa [bulkCalls] using h
        cases r1 with
        | error e1 =>
          left
          simp [ReindexConference, hg, hf, hts, h1, htr1, bulkCalls]
        | ok u1 =>
          rcases h2 : ensureIndexExists s s.publicIndex with ⟨tr2, r2⟩
          have htr2 : List.filter isBulkCall tr2 = [] := by
            have h := bulkCalls_ensureIndexExists s s.publicIndex
            rw [h2] at h
            simpa [bulkCalls] using h
          cases r2 with
          | error e2 =>
            left
            simp [ReindexConference, hg, hf, hts, h1, h2, bulkCalls, htr1, htr2]
          | ok u2 =>
            cases hb : s.searchIndex.BulkIndex s.privateIndex
                (prepareTalksForPrivateIndex talks) with
            | some e =>
              right; left
              refine ⟨prepareTalksForPrivateIndex talks, e, ?_, hb, ?_⟩
              · simp [ReindexConference, hg, hf, hts, h1, h2, hb,
                  bulkCalls, htr1, htr2, isBulkCall]
              · simp [ReindexConference, hg, hf, hts, h1, h2, hb]
            | none =>
              right; right; right
              refine ⟨prepareTalksForPrivateIndex talks,
                filterApprovedTalksForPublic talks, ?_, hb⟩
              cases hb2 : s.searchIndex.BulkIndex s.publicIndex
                  (filterApprovedTalksForPublic talks) with
              | some e2 =>
                simp [ReindexConference, hg, hf, hts, h1, h2, hb, hb2,
                  bulkCalls, htr1, htr2, isBulkCall]
              | none =>
                simp [ReindexConference, hg, hf, hts, h1, h2, hb, hb2,
                  bulkCalls, htr1, htr2, isBulkCall]

theorem reindexAll_bulkWriteOrdered (s : IndexerService) :
    BulkWriteOrdered s (ReindexAll s) := by
  cases hg : s.source.GetConferences with
  | error e =>
    left
    simp [ReindexAll, hg, bulkCalls]
  | ok conferences =>
    rcases h1 : recreateIndex s s.privateIndex with ⟨tr1, r1⟩
    have htr1 : List.filter isBulkCall tr1 = [] := by
      have h := bulkCalls_recreateIndex s s.privateIndex
      rw [h1] at h
      simpa [bulkCalls] using h
    cases r1 with
    | error e1 =>
      left
      simp [ReindexAll, hg, h1, htr1, bulkCalls]
    | ok u1 =>
      rcases h2 : recreateIndex s s.publicIndex with ⟨tr2, r2⟩
      have htr2 : List.filter isBulkCall tr2 = [] := by
        have h := bulkCalls_recreateIndex s s.publicIndex
        rw [h2] at h
        simpa [bulkCalls] using h
      cases r2 with
      | error e2 =>
        left
        simp [ReindexAll, hg, h1, h2, bulkCalls, htr1, htr2]
      | ok u2 =>
        cases hcol : collectAllTalks s.source conferences with
        | nil =>
          left
          simp [ReindexAll, hg, h1, h2, hcol, bulkCalls, htr1, htr2]
        | cons t0 rest =>
          cases hb : s.searchIndex.BulkIndex s.privateIndex
              (prepareTalksForPrivateIndex (t0 :: rest)) with
          | some e =>
            right; left
            refine ⟨prepareTalksForPrivateIndex (t0 :: rest), e, ?_, hb, ?_⟩
            · simp [ReindexAll, hg, h1, h2, hcol, hb,
                bulkCalls, htr1, htr2, isBulkCall]
            · simp [ReindexAll, hg, h1, h2, hcol, hb]
          | none =>
            right; right; right
            refine ⟨prepareTalksForPrivateIndex (t0 :: rest),
              filterApprovedTalksForPublic (t0 :: rest), ?_, hb⟩
            cases hb2 : s.searchIndex.BulkIndex s.publicIndex
                (filterApprovedTalksForPublic (t0 :: rest)) with
            | some e2 =>
              simp [ReindexAll, hg, h1, h2, hcol, hb, hb2,
                bulkCalls, htr1, htr2, isBulkCall]
            | none =>
              simp [ReindexAll, hg, h1, h2, hcol, hb, hb2,
                bulkCalls, htr1, htr2, isBulkCall]

theorem take_length_append {α : Type} (l1 l2 : List α) :
    (l1 ++ l2).take l1.length = l1 := by
  induction l1 with
  | nil => rfl
  | cons a t ih => simp [ih]

theorem drop_length_append {α : Type} (l1 l2 : List α) :
    (l1 ++ l2).drop l1.length = l2 := by
  induction l1 with
  | nil => rfl
  | cons a t ih => simp [ih]

theorem scopedPolicy_nil (s : IndexerService) (res : Except String Unit) :
    ScopedLifecyclePolicy s ([], res) := by
  refine ⟨by simp, by simp, 0, by simp, by simp, by simp⟩

theorem notBulk_ensureIndexExists (s : IndexerService) (n : String) :
    ∀ c ∈ (ensureIndexExists s n).1, isBulkCall c = false := by
  rcases ensureIndexExists_shape s n with h | ⟨h, _⟩ <;> rw [h] <;>
    intro c hc <;> simp at hc
  · rw [hc]
    rfl
  · rcases hc with hc | hc <;> rw [hc] <;> rfl

/-- Packaging lemma: a run whose trace is a bulk-free prefix with the
`ensureIndexExists` properties, followed by only bulk calls that occur
only after both ensures, satisfies the scoped lifecycle policy. -/
theorem scopedPolicy_of_parts (s : IndexerService) (res : Except String Unit)
    (tr pre bulks : List SearchCall)
    (htr : tr = pre ++ bulks)
    (hpreNb : ∀ c ∈ pre, isBulkCall c = false)
    (hpreNd : ∀ n, SearchCall.DeleteIndex n ∉ pre)
    (hpreC : ∀ n m, SearchCall.CreateIndex n m ∈ pre →
        s.searchIndex.IndexExists n = Except.ok false
        ∧ m = getMappingForIndex s n)
    (hbulkB : ∀ c ∈ bulks, isBulkCall c = true)
    (hbulkMem : bulks ≠ [] →
        SearchCall.IndexExists s.privateIndex ∈ pre
        ∧ SearchCall.IndexExists s.publicIndex ∈ pre) :
    ScopedLifecyclePolicy s (tr, res) := by
  subst htr
  refine ⟨?_, ?_, pre.length, ?_, ?_, ?_⟩
  · intro n hmem
    rcases List.mem_append.mp hmem with hm | hm
    · exact hpreNd n hm
    · have := hbulkB _ hm
      simp [isBulkCall] at this
  · intro n m hmem
    rcases List.mem_append.mp hmem with hm | hm
    · exact hpreC n m hm
    · have := hbulkB _ hm
      simp [isBulkCall] at this
  · rw [take_length_append]
    exact hpreNb
  · rw [drop_length_append]
    exact hbulkB
  · rw [drop_length_append, take_length_append]
    exact hbulkMem

theorem reindexConference_scopedPolicy (s : IndexerService) (slug : String) :
    ScopedLifecyclePolicy s (ReindexConference s slug) := by
  cases hg : s.source.GetConferences with
  | error e =>
    simp only [ReindexConference, hg]
    exact scopedPolicy_nil s _
  | ok conferences =>
    cases hf : conferences.find? (fun conf => conf.slug = slug) with
    | none =>
      simp only [ReindexConference, hg, hf]
      exact scopedPolicy_nil s _
    | some targetConference =>
      cases hts : s.source.GetTalks targetConference.id with
      | error e =>
        simp only [ReindexConference, hg, hf, hts]
        exact scopedPolicy_nil s _
      | ok talks =>
        rcases h1 : ensureIndexExists s s.privateIndex with ⟨tr1, r1⟩
        have htr1 : tr1 = (ensureIndexExists s s.privateIndex).1 := by rw [h1]
        cases r1 with
        | error e1 =>
          simp only [ReindexConference, hg, hf, hts, h1]
          refine scopedPolicy_of_parts s _ tr1 tr1 [] (by simp) ?_ ?_ ?_
            (by simp) (by simp)
          · rw [htr1]
            exact notBulk_ensureIndexExists s s.privateIndex
          · intro n
            rw [htr1]
            exact deleteIndex_notMem_ensureIndexExists s s.privateIndex n
          · intro n m hm
            rw [htr1] at hm
            exact createIndex_mem_ensureIndexExists s s.privateIndex n m hm
        | ok u1 =>
          rcases h2 : ensureIndexExists s s.publicIndex with ⟨tr2, r2⟩
          have htr2 : tr2 = (ensureIndexExists s s.publicIndex).1 := by rw [h2]
          have hpreNb : ∀ c ∈ tr1 ++ tr2, isBulkCall c = false := by
            intro c hc
            rcases List.mem_append.mp hc with hm | hm
            · rw [htr1] at hm
              exact notBulk_ensureIndexExists s s.privateIndex c hm
            · rw [htr2] at hm
              exact notBulk_ensureIndexExists s s.publicIndex c hm
          have hpreNd : ∀ n, SearchCall.DeleteIndex n ∉ tr1 ++ tr2 := by
            intro n hc
            rcases List.mem_append.mp hc with hm | hm
            · rw [htr1] at hm
              exact deleteIndex_notMem_ensureIndexExists s s.privateIndex n hm
            · rw [htr2] at hm
              exact deleteIndex_notMem_ensureIndexExists s s.publicIndex n hm
          have hpreC : ∀ n m, SearchCall.CreateIndex n m ∈ tr1 ++ tr2 →
              s.searchIndex.IndexExists n = Except.ok false
              ∧ m = getMappingForIndex s n := by
            intro n m hc
            rcases List.mem_append.mp hc with hm | hm
            · rw [htr1] at hm
              exact createIndex_mem_ensureIndexExists s s.privateIndex n m hm
            · rw [htr2] at hm
              exact createIndex_mem_ensureIndexExists s s.publicIndex n m hm
          have hpreMem : SearchCall.IndexExists s.privateIndex ∈ tr1 ++ tr2
              ∧ SearchCall.IndexExists s.publicIndex ∈ tr1 ++ tr2 := by
            constructor
            · apply List.mem_append_left
              rw [htr1]
              exact indexExists_mem_ensureIndexExists s s.privateIndex
            · apply List.mem_append_right
              rw [htr2]
              exact indexExists_mem_ensureIndexExists s s.publicIndex
          cases r2 with
          | error e2 =>
            simp only [ReindexConference, hg, hf, hts, h1, h2]
            exact scopedPolicy_of_parts s _ (tr1 ++ tr2) (tr1 ++ tr2) []
              (by simp) hpreNb hpreNd hpreC (by simp) (by simp)
          | ok u2 =>
            cases hb : s.searchIndex.BulkIndex s.privateIndex
                (prepareTalksForPrivateIndex talks) with
            | some e =>
              simp only [ReindexConference, hg, hf, hts, h1, h2, hb]
              refine scopedPolicy_of_parts s _ _ (tr1 ++ tr2)
                [SearchCall.BulkIndex s.privateIndex
                  (prepareTalksForPrivateIndex talks)]
                (by simp) hpreNb hpreNd hpreC (by simp [isBulkCall])
                (fun _ => hpreMem)
            | none =>
              cases hb2 : s.searchIndex.BulkIndex s.publicIndex
                  (filterApprovedTalksForPublic talks) with
              | some e2 =>
                simp only [ReindexConference, hg, hf, hts, h1, h2, hb, hb2]
                refine scopedPolicy_of_parts s _ _ (tr1 ++ tr2)
                  [SearchCall.BulkIndex s.privateIndex
                    (prepareTalksForPrivateIndex talks),
                   SearchCall.BulkIndex s.publicIndex
                    (filterApprovedTalksForPublic talks)]
                  (by simp) hpreNb hpreNd hpreC ?_ (fun _ => hpreMem)
                intro c hc
                simp at hc
                rcases hc with hc | hc <;> rw [hc] <;> rfl
              | none =>
                simp only [ReindexConference, hg, hf, hts, h1, h2, hb, hb2]
                refine scopedPolicy_of_parts s _ _ (tr1 ++ tr2)
                  [SearchCall.BulkIndex s.privateIndex
                    (prepareTalksForPrivateIndex talks),
                   SearchCall.BulkIndex s.publicIndex
                    (filterApprovedTalksForPublic talks)]
                  (by simp) hpreNb hpreNd hpreC ?_ (fun _ => hpreMem)
                intro c hc
                simp at hc
                rcases hc with hc | hc <;> rw [hc] <;> rfl

theorem reindexTalk_scopedPolicy (s : IndexerService) (talkID : String) :
    ScopedLifecyclePolicy s (ReindexTalk s talkID) := by
  cases hg : s.source.GetTalk talkID with
  | error e =>
    simp only [ReindexTalk, hg]
    exact scopedPolicy_nil s _
  | ok t =>
    rcases h1 : ensureIndexExists s s.privateIndex with ⟨tr1, r1⟩
    have htr1 : tr1 = (ensureIndexExists s s.privateIndex).1 := by rw [h1]
    cases r1 with
    | error e1 =>
      simp only [ReindexTalk, hg, h1]
      refine scopedPolicy_of_parts s _ tr1 tr1 [] (by simp) ?_ ?_ ?_
        (by simp) (by simp)
      · rw [htr1]
        exact notBulk_ensureIndexExists s s.privateIndex
      · intro n
        rw [htr1]
        exact deleteIndex_notMem_ensureIndexExists s s.privateIndex n
      · intro n m hm
        rw [htr1] at hm
        exact createIndex_mem_ensureIndexExists s s.privateIndex n m hm
    | ok u1 =>
      rcases h2 : ensureIndexExists s s.publicIndex with ⟨tr2, r2⟩
      have htr2 : tr2 = (ensureIndexExists s s.publicIndex).1 := by rw [h2]
      have hpreNb : ∀ c ∈ tr1 ++ tr2, isBulkCall c = false := by
        intro c hc
        rcases List.mem_append.mp hc with hm | hm
        · rw [htr1] at hm
          exact notBulk_ensureIndexExists s s.privateIndex c hm
        · rw [htr2] at hm
          exact notBulk_ensureIndexExists s s.publicIndex c hm
      have hpreNd : ∀ n, SearchCall.DeleteIndex n ∉ tr1 ++ tr2 := by
        intro n hc
        rcases List.mem_append.mp hc with hm | hm
        · rw [htr1] at hm
          exact deleteIndex_notMem_ensureIndexExists s s.privateIndex n hm
        · rw [htr2] at hm
          exact deleteIndex_notMem_ensureIndexExists s s.publicIndex n hm
      have hpreC : ∀ n m, SearchCall.CreateIndex n m ∈ tr1 ++ tr2 →
          s.searchIndex.IndexExists n = Except.ok false
          ∧ m = getMappingForIndex s n := by
        intro n m hc
        rcases List.mem_append.mp hc with hm | hm
        · rw [htr1] at hm
          exact createIndex_mem_ensureIndexExists s s.privateIndex n m hm
        · rw [htr2] at hm
          exact createIndex_mem_ensureIndexExists s s.publicIndex n m hm
      have hpreMem : SearchCall.IndexExists s.privateIndex ∈ tr1 ++ tr2
          ∧ SearchCall.IndexExists s.publicIndex ∈ tr1 ++ tr2 := by
        constructor
        · apply List.mem_append_left
          rw [htr1]
          exact indexExists_mem_ensureIndexExists s s.privateIndex
        · apply List.mem_append_right
          rw [htr2]
          exact indexExists_mem_ensureIndexExists s s.publicIndex
      cases r2 with
      | error e2 =>
        simp only [ReindexTalk, hg, h1, h2]
        exact scopedPolicy_of_parts s _ (tr1 ++ tr2) (tr1 ++ tr2) []
          (by simp) hpreNb hpreNd hpreC (by simp) (by simp)
      | ok u2 =>
        cases hb : s.searchIndex.BulkIndex s.privateIndex [t.ToPrivate] with
        | some e =>
          simp only [ReindexTalk, hg, h1, h2, hb]
          exact scopedPolicy_of_parts s _ _ (tr1 ++ tr2)
            [SearchCall.BulkIndex s.privateIndex [t.ToPrivate]]
            (by simp) hpreNb hpreNd hpreC (by simp [isBulkCall])
            (fun _ => hpreMem)
        | none =>
          by_cases hp : TalkStatus.IsPublic t.status
          · cases hb2 : s.searchIndex.BulkIndex s.publicIndex [t.ToPublic] with
            | some e2 =>
              simp only [ReindexTalk, hg, h1, h2, hb, hp, if_true]
              refine scopedPolicy_of_parts s _ _ (tr1 ++ tr2)
                [SearchCall.BulkIndex s.privateIndex [t.ToPrivate],
                 SearchCall.BulkIndex s.publicIndex [t.ToPublic]]
                ?_ hpreNb hpreNd hpreC ?_ (fun _ => hpreMem)
              · simp [hb2]
              · intro c hc
                simp at hc
                rcases hc with hc | hc <;> rw [hc] <;> rfl
            | none =>
              simp only [ReindexTalk, hg, h1, h2, hb, hp, if_true]
              refine scopedPolicy_of_parts s _ _ (tr1 ++ tr2)
                [SearchCall.BulkIndex s.privateIndex [t.ToPrivate],
                 SearchCall.BulkIndex s.publicIndex [t.ToPublic]]
                ?_ hpreNb hpreNd hpreC ?_ (fun _ => hpreMem)
              · simp [hb2]
              · intro c hc
                simp at hc
                rcases hc with hc | hc <;> rw [hc] <;> rfl
          · simp only [ReindexTalk, hg, h1, h2, hb, hp, if_false]
            refine scopedPolicy_of_parts s _ _ (tr1 ++ tr2)
              [SearchCall.BulkIndex s.privateIndex [t.ToPrivate]]
              (by simp) hpreNb hpreNd hpreC (by simp [isBulkCall])
              (fun _ => hpreMem)

/-! ### Claim theorems -/

/-- Claim C1: `filterApprovedTalksForPublic` produces a public projection
for a talk if and only if the talk's status is strictly (case-sensitively)
equal to the single approved-state value `APPROVED`; no talk with any
other status appears in the public output, and each produced public
projection contains no keys from the talk's `privateData` that are absent
from its `data`. -/
theorem claim_C1_public_filter_iff_approved (talks : List Talk) :
    filterApprovedTalksForPublic talks
      = (talks.filter (fun t => t.status = StatusApproved)).map Talk.ToPublic
    ∧ (∀ p ∈ filterApprovedTalksForPublic talks,
        p.status = StatusApproved
        ∧ ∃ t, t ∈ talks ∧ t.status = StatusApproved ∧ p = t.ToPublic
            ∧ ∀ k ∈ mapKeys t.privateData, k ∉ mapKeys t.data →
                k ∉ mapKeys p.data ∧ k ∉ mapKeys p.privateData) := by
  have heq : filterApprovedTalksForPublic talks
      = (talks.filter (fun t => t.status = StatusApproved)).map Talk.ToPublic := by
    rw [filterApprovedTalksForPublic_eq_filter_map]
    simp [TalkStatus.IsPublic]
  refine ⟨heq, ?_⟩
  intro p hp
  rw [heq] at hp
  rcases List.mem_map.mp hp with ⟨t, ht, rfl⟩
  rcases List.mem_filter.mp ht with ⟨htalks, hstat⟩
  have hst : t.status = StatusApproved := by simpa using hstat
  refine ⟨hst, t, htalks, hst, rfl, ?_⟩
  intro k _ hknd
  exact ⟨hknd, by simp [Talk.ToPublic, mapKeys]⟩

/-- Witness for claim C1 at a concrete two-talk list (one `APPROVED`,
one `SUBMITTED`). -/
theorem claim_C1_witness :
    filterApprovedTalksForPublic [wTalkApproved, wTalkSubmitted]
      = ([wTalkApproved, wTalkSubmitted].filter
          (fun t => t.status = StatusApproved)).map Talk.ToPublic
    ∧ (∀ p ∈ filterApprovedTalksForPublic [wTalkApproved, wTalkSubmitted],
        p.status = StatusApproved
        ∧ ∃ t, t ∈ [wTalkApproved, wTalkSubmitted]
            ∧ t.status = StatusApproved ∧ p = t.ToPublic
            ∧ ∀ k ∈ mapKeys t.privateData, k ∉ mapKeys t.data →
                k ∉ mapKeys p.data ∧ k ∉ mapKeys p.privateData) :=
  claim_C1_public_filter_iff_approved [wTalkApproved, wTalkSubmitted]

/-- Claim C2: for every talk the private projection exists regardless of
status, its `data` is `data` overlaid with `privateData` (private wins on
key collision, unshadowed `data` entries preserved, key set the union),
its `privateData` is cleared, and `prepareTalksForPrivateIndex` applies
this elementwise, preserving length and order. -/
theorem claim_C2_private_projection (talks : List Talk) (t : Talk) :
    (Talk.ToPrivate t).privateData = []
    ∧ (Talk.ToPrivate t).data = mapMerge t.data t.privateData
    ∧ (∀ k, k ∉ mapKeys t.privateData →
        mapLookup (Talk.ToPrivate t).data k = mapLookup t.data k)
    ∧ ((mapKeys t.privateData).Nodup →
        ∀ k v, (k, v) ∈ t.privateData →
          mapLookup (Talk.ToPrivate t).data k = some v)
    ∧ (∀ k, k ∈ mapKeys (Talk.ToPrivate t).data ↔
        k ∈ mapKeys t.data ∨ k ∈ mapKeys t.privateData)
    ∧ (prepareTalksForPrivateIndex talks).length = talks.length
    ∧ (∀ i : Nat, (prepareTalksForPrivateIndex talks)[i]?
        = (talks[i]?).map Talk.ToPrivate) := by
  refine ⟨rfl, rfl, ?_, ?_, ?_, ?_, ?_⟩
  · intro k hk
    exact mapLookup_mapMerge_of_notMem _ _ _ hk
  · intro hnd k v hmem
    exact mapLookup_mapMerge_of_mem _ _ _ _ hnd hmem
  · intro k
    exact mem_mapKeys_mapMerge _ _ _
  · simp [prepareTalksForPrivateIndex]
  · intro i
    simp [prepareTalksForPrivateIndex]

/-- Witness for claim C2 at a concrete talk list and talk. -/
theorem claim_C2_witness :
    (Talk.ToPrivate wTalkApproved).privateData = []
    ∧ (Talk.ToPrivate wTalkApproved).data
        = mapMerge wTalkApproved.data wTalkApproved.privateData
    ∧ (∀ k, k ∉ mapKeys wTalkApproved.privateData →
        mapLookup (Talk.ToPrivate wTalkApproved).data k
          = mapLookup wTalkApproved.data k)
    ∧ ((mapKeys wTalkApproved.privateData).Nodup →
        ∀ k v, (k, v) ∈ wTalkApproved.privateData →
          mapLookup (Talk.ToPrivate wTalkApproved).data k = some v)
    ∧ (∀ k, k ∈ mapKeys (Talk.ToPrivate wTalkApproved).data ↔
        k ∈ mapKeys wTalkApproved.data ∨ k ∈ mapKeys wTalkApproved.privateData)
    ∧ (prepareTalksForPrivateIndex [wTalkApproved, wTalkSubmitted]).length
        = [wTalkApproved, wTalkSubmitted].length
    ∧ (∀ i : Nat, (prepareTalksForPrivateIndex [wTalkApproved, wTalkSubmitted])[i]?
        = ([wTalkApproved, wTalkSubmitted][i]?).map Talk.ToPrivate) :=
  claim_C2_private_projection [wTalkApproved, wTalkSubmitted] wTalkApproved

/-- Claim C10: `getMappingForIndex` returns the private mapping exactly
when the index name equals the configured private index name; every other
name receives the public mapping, and if the two configured index names
were equal, both would receive the private mapping. -/
theorem claim_C10_mapping_for_index (s : IndexerService) (indexName : String) :
    getMappingForIndex s s.privateIndex = s.privateIndexMapping
    ∧ (indexName ≠ s.privateIndex →
        getMappingForIndex s indexName = s.publicIndexMapping)
    ∧ (s.privateIndex = s.publicIndex →
        getMappingForIndex s s.publicIndex = s.privateIndexMapping) := by
  refine ⟨by simp [getMappingForIndex], ?_, ?_⟩
  · intro h
    simp [getMappingForIndex, h]
  · intro h
    rw [getMappingForIndex, if_pos h.symm]

/-- Claim C3: in each of the three operations the bulk write to the
private index precedes any bulk write to the public index, and if the
private-index bulk write returns an error, the public-index bulk write is
never attempted and the wrapped error is returned immediately. -/
theorem claim_C3_private_write_precedes_public (s : IndexerService)
    (slug talkID : String) :
    BulkWriteOrdered s (ReindexAll s)
    ∧ BulkWriteOrdered s (ReindexConference s slug)
    ∧ BulkWriteOrdered s (ReindexTalk s talkID) :=
  ⟨reindexAll_bulkWriteOrdered s, reindexConference_bulkWriteOrdered s slug,
   reindexTalk_bulkWriteOrdered s talkID⟩

/-- Witness for claim C3 at a concrete service, slug and talk id. -/
theorem claim_C3_witness :
    BulkWriteOrdered wService (ReindexAll wService)
    ∧ BulkWriteOrdered wService (ReindexConference wService "javazone2024")
    ∧ BulkWriteOrdered wService (ReindexTalk wService "talk-1") :=
  claim_C3_private_write_precedes_public wService "javazone2024" "talk-1"

/-- Claim C5: if the initial conference fetch of `ReindexAll` fails, the
operation returns immediately with the wrapped error and the trace of
Search Gateway calls is empty — no delete, create or bulk write has been
made, both indexes untouched. -/
theorem claim_C5_conference_fetch_fatal (s : IndexerService) (e : String)
    (h : s.source.GetConferences = Except.error e) :
    ReindexAll s = ([], Except.error ("failed to fetch conferences: " ++ e)) := by
  simp [ReindexAll, h]

/-- Witness for claim C5 at a concrete service whose conference fetch
fails. -/
theorem claim_C5_witness :
    ReindexAll wServiceConfErr
      = ([], Except.error "failed to fetch conferences: connection error") :=
  claim_C5_conference_fetch_fatal wServiceConfErr "connection error" rfl

/-- Claim C6: every `ReindexAll` run whose aggregated talk collection is
empty still unconditionally deletes and recreates both indexes with
their mappings, issues no bulk write, and returns success. -/
theorem claim_C6_empty_aggregate_success (s : IndexerService)
    (confs : List Conference)
    (hc : s.source.GetConferences = Except.ok confs)
    (hdp : s.searchIndex.DeleteIndex s.privateIndex = none)
    (hcp : s.searchIndex.CreateIndex s.privateIndex
        (getMappingForIndex s s.privateIndex) = none)
    (hdq : s.searchIndex.DeleteIndex s.publicIndex = none)
    (hcq : s.searchIndex.CreateIndex s.publicIndex
        (getMappingForIndex s s.publicIndex) = none)
    (hempty : collectAllTalks s.source confs = []) :
    ReindexAll s
      = ([SearchCall.DeleteIndex s.privateIndex,
          SearchCall.CreateIndex s.privateIndex (getMappingForIndex s s.privateIndex),
          SearchCall.DeleteIndex s.publicIndex,
          SearchCall.CreateIndex s.publicIndex (getMappingForIndex s s.publicIndex)],
         Except.ok ())
    ∧ bulkCalls (ReindexAll s).1 = []
    ∧ getMappingForIndex s s.privateIndex = s.privateIndexMapping := by
  have hrp : recreateIndex s s.privateIndex
      = ([SearchCall.DeleteIndex s.privateIndex,
          SearchCall.CreateIndex s.privateIndex (getMappingForIndex s s.privateIndex)],
         Except.ok ()) := by
    simp [recreateIndex, hdp, hcp]
  have hrq : recreateIndex s s.publicIndex
      = ([SearchCall.DeleteIndex s.publicIndex,
          SearchCall.CreateIndex s.publicIndex (getMappingForIndex s s.publicIndex)],
         Except.ok ()) := by
    simp [recreateIndex, hdq, hcq]
  have hmain : ReindexAll s
      = ([SearchCall.DeleteIndex s.privateIndex,
          SearchCall.CreateIndex s.privateIndex (getMappingForIndex s s.privateIndex),
          SearchCall.DeleteIndex s.publicIndex,
          SearchCall.CreateIndex s.publicIndex (getMappingForIndex s s.publicIndex)],
         Except.ok ()) := by
    simp [ReindexAll, hc, hrp, hrq, hempty]
  refine ⟨hmain, ?_, by simp [getMappingForIndex]⟩
  rw [hmain]
  simp [bulkCalls, isBulkCall]

/-- Witness for claim C6: a concrete service with zero conferences. -/
theorem claim_C6_witness :
    ReindexAll wService
      = ([SearchCall.DeleteIndex wService.privateIndex,
          SearchCall.CreateIndex wService.privateIndex
            (getMappingForIndex wService wService.privateIndex),
          SearchCall.DeleteIndex wService.publicIndex,
          SearchCall.CreateIndex wService.publicIndex
            (getMappingForIndex wService wService.publicIndex)],
         Except.ok ())
    ∧ bulkCalls (ReindexAll wService).1 = []
    ∧ getMappingForIndex wService wService.privateIndex
        = wService.privateIndexMapping :=
  claim_C6_empty_aggregate_success wService [] rfl rfl rfl rfl rfl rfl

/-- Claim C7: a `ReindexConference` call whose slug matches no fetched
conference fails with the "conference not found" classification and an
empty Search Gateway trace — no write, create, delete or existence check
is made. -/
theorem claim_C7_conference_not_found (s : IndexerService) (slug : String)
    (confs : List Conference)
    (hc : s.source.GetConferences = Except.ok confs)
    (hn : ∀ c ∈ confs, c.slug ≠ slug) :
    ReindexConference s slug
      = ([], Except.error ("conference not found with slug: " ++ slug)) := by
  have hfind : confs.find? (fun conf => conf.slug = slug) = none := by
    rw [List.find?_eq_none]
    intro c hcm
    simpa using hn c hcm
  simp [ReindexConference, hc, hfind]

/-- Witness for claim C7: a concrete service knowing one conference,
asked for an unknown slug. -/
theorem claim_C7_witness :
    ReindexConference wServiceOneConf "nonexistent"
      = ([], Except.error "conference not found with slug: nonexistent") :=
  claim_C7_conference_not_found wServiceOneConf "nonexistent" [wConference] rfl
    (by decide)

/-- The aggregation loop of `ReindexAll`, generalized over the
accumulator: failed conferences contribute nothing, successful ones
contribute their talks in order. -/
theorem collectAllTalks_foldl (src : TalkSource) (confs : List Conference)
    (acc : List Talk) :
    confs.foldl
        (fun allTalks conf =>
          match src.GetTalks conf.id with
          | Except.error _ => allTalks
          | Except.ok talks => allTalks ++ talks)
        acc
      = acc ++ (confs.filterMap
          (fun c => (src.GetTalks c.id).toOption)).flatten := by
  induction confs generalizing acc with
  | nil => simp
  | cons c rest ih =>
    cases h : src.GetTalks c.id with
    | error e => simp [List.filterMap_cons, h, ih, Except.toOption]
    | ok talks => simp [List.filterMap_cons, h, ih, Except.toOption]

theorem collectAllTalks_eq_join (src : TalkSource) (confs : List Conference) :
    collectAllTalks src confs
      = (confs.filterMap (fun c => (src.GetTalks c.id).toOption)).flatten := by
  rw [collectAllTalks, collectAllTalks_foldl]
  simp

/-- Claim C4: a failing per-conference talk fetch during `ReindexAll` is
not propagated — the conference is excluded from the aggregate and the
loop continues; concretely, when one conference's fetch fails and another
yields one approved talk, the operation succeeds and exactly one document
is written to each index. -/
theorem claim_C4_per_conference_failure_nonfatal (s : IndexerService)
    (c1 c2 : Conference) (t : Talk) (e : String)
    (hc : s.source.GetConferences = Except.ok [c1, c2])
    (h1 : s.source.GetTalks c1.id = Except.error e)
    (h2 : s.source.GetTalks c2.id = Except.ok [t])
    (ht : t.status = StatusApproved)
    (hdp : s.searchIndex.DeleteIndex s.privateIndex = none)
    (hcp : s.searchIndex.CreateIndex s.privateIndex
        (getMappingForIndex s s.privateIndex) = none)
    (hdq : s.searchIndex.DeleteIndex s.publicIndex = none)
    (hcq : s.searchIndex.CreateIndex s.publicIndex
        (getMappingForIndex s s.publicIndex) = none)
    (hbp : s.searchIndex.BulkIndex s.privateIndex [t.ToPrivate] = none)
    (hbq : s.searchIndex.BulkIndex s.publicIndex [t.ToPublic] = none) :
    (∀ (src : TalkSource) (confs : List Conference),
        collectAllTalks src confs
          = (confs.filterMap (fun c => (src.GetTalks c.id).toOption)).flatten)
    ∧ (ReindexAll s).2 = Except.ok ()
    ∧ bulkCalls (ReindexAll s).1
        = [SearchCall.BulkIndex s.privateIndex [t.ToPrivate],
           SearchCall.BulkIndex s.publicIndex [t.ToPublic]] := by
  have hcol : collectAllTalks s.source [c1, c2] = [t] := by
    simp [collectAllTalks, h1, h2]
  have hprep : prepareTalksForPrivateIndex [t] = [t.ToPrivate] := rfl
  have hfilt : filterApprovedTalksForPublic [t] = [t.ToPublic] := by
    simp [filterApprovedTalksForPublic, TalkStatus.IsPublic, ht]
  have hrp : recreateIndex s s.privateIndex
      = ([SearchCall.DeleteIndex s.privateIndex,
          SearchCall.CreateIndex s.privateIndex (getMappingForIndex s s.privateIndex)],
         Except.ok ()) := by
    simp [recreateIndex, hdp, hcp]
  have hrq : recreateIndex s s.publicIndex
      = ([SearchCall.DeleteIndex s.publicIndex,
          SearchCall.CreateIndex s.publicIndex (getMappingForIndex s s.publicIndex)],
         Except.ok ()) := by
    simp [recreateIndex, hdq, hcq]
  have hmain : ReindexAll s
      = ([SearchCall.DeleteIndex s.privateIndex,
          SearchCall.CreateIndex s.privateIndex (getMappingForIndex s s.privateIndex),
          SearchCall.DeleteIndex s.publicIndex,
          SearchCall.CreateIndex s.publicIndex (getMappingForIndex s s.publicIndex),
          SearchCall.BulkIndex s.privateIndex [t.ToPrivate],
          SearchCall.BulkIndex s.publicIndex [t.ToPublic]],
         Except.ok ()) := by
    simp [ReindexAll, hc, hrp, hrq, hcol, hprep, hfilt, hbp, hbq]
  refine ⟨fun src confs => collectAllTalks_eq_join src confs, ?_, ?_⟩
  · rw [hmain]
  · rw [hmain]
    simp [bulkCalls, isBulkCall]

/-- Claim C8: every successful `ReindexTalk` run always bulk-writes the
private projection, and bulk-writes the public projection — after the
private one — exactly when the talk's status is publicly visible; so a
`SUBMITTED` talk yields one bulk write and an `APPROVED` talk two. -/
theorem claim_C8_reindex_talk_writes (s : IndexerService) (talkID : String)
    (t : Talk)
    (hg : s.source.GetTalk talkID = Except.ok t)
    (hok : (ReindexTalk s talkID).2 = Except.ok ()) :
    bulkCalls (ReindexTalk s talkID).1
      = (if TalkStatus.IsPublic t.status then
          [SearchCall.BulkIndex s.privateIndex [t.ToPrivate],
           SearchCall.BulkIndex s.publicIndex [t.ToPublic]]
        else [SearchCall.BulkIndex s.privateIndex [t.ToPrivate]])
    ∧ TalkStatus.IsPublic StatusApproved = true
    ∧ TalkStatus.IsPublic "SUBMITTED" = false := by
  refine ⟨?_, by decide, by decide⟩
  rcases h1 : ensureIndexExists s s.privateIndex with ⟨tr1, r1⟩
  have htr1 : List.filter isBulkCall tr1 = [] := by
    have h := bulkCalls_ensureIndexExists s s.privateIndex
    rw [h1] at h
    simpa [bulkCalls] using h
  cases r1 with
  | error e1 =>
    simp [ReindexTalk, hg, h1] at hok
  | ok u1 =>
    rcases h2 : ensureIndexExists s s.publicIndex with ⟨tr2, r2⟩
    have htr2 : List.filter isBulkCall tr2 = [] := by
      have h := bulkCalls_ensureIndexExists s s.publicIndex
      rw [h2] at h
      simpa [bulkCalls] using h
    cases r2 with
    | error e2 =>
      simp [ReindexTalk, hg, h1, h2] at hok
    | ok u2 =>
      cases hb : s.searchIndex.BulkIndex s.privateIndex [t.ToPrivate] with
      | some e =>
        simp [ReindexTalk, hg, h1, h2, hb] at hok
      | none =>
        by_cases hp : TalkStatus.IsPublic t.status
        · cases hb2 : s.searchIndex.BulkIndex s.publicIndex [t.ToPublic] with
          | some e2 =>
            simp [ReindexTalk, hg, h1, h2, hb, hp, hb2] at hok
          | none =>
            simp [ReindexTalk, hg, h1, h2, hb, hp, hb2,
              bulkCalls, htr1, htr2, isBulkCall]
        · simp [ReindexTalk, hg, h1, h2, hb, hp,
            bulkCalls, htr1, htr2, isBulkCall]

/-- Witness for claim C4: a concrete service where `conf-1`'s talk fetch
fails and `conf-2` yields one approved talk. -/
theorem claim_C4_witness :
    (∀ (src : TalkSource) (confs : List Conference),
        collectAllTalks src confs
          = (confs.filterMap (fun c => (src.GetTalks c.id).toOption)).flatten)
    ∧ (ReindexAll wServiceSkip).2 = Except.ok ()
    ∧ bulkCalls (ReindexAll wServiceSkip).1
        = [SearchCall.BulkIndex wServiceSkip.privateIndex
            [wTalkApproved.ToPrivate],
           SearchCall.BulkIndex wServiceSkip.publicIndex
            [wTalkApproved.ToPublic]] :=
  claim_C4_per_conference_failure_nonfatal wServiceSkip wConference wConference2
    wTalkApproved "error fetching talks" rfl rfl rfl rfl rfl rfl rfl rfl rfl rfl

/-- Witness for claim C8: a concrete successful `ReindexTalk` run on an
approved talk. -/
theorem claim_C8_witness :
    bulkCalls (ReindexTalk wServiceTalk "talk-1").1
      = (if TalkStatus.IsPublic wTalkApproved.status then
          [SearchCall.BulkIndex wServiceTalk.privateIndex
            [wTalkApproved.ToPrivate],
           SearchCall.BulkIndex wServiceTalk.publicIndex
            [wTalkApproved.ToPublic]]
        else
          [SearchCall.BulkIndex wServiceTalk.privateIndex
            [wTalkApproved.ToPrivate]])
    ∧ TalkStatus.IsPublic StatusApproved = true
    ∧ TalkStatus.IsPublic "SUBMITTED" = false :=
  claim_C8_reindex_talk_writes wServiceTalk "talk-1" wTalkApproved rfl rfl

/-- Claim C9: the two scoped operations never call `DeleteIndex`; they
check `IndexExists` for both configured index names before any bulk
write, and call `CreateIndex` (with the mapping keyed to the index name)
only when the existence check reported the index absent. -/
theorem claim_C9_scoped_lifecycle (s : IndexerService) (slug talkID : String) :
    ScopedLifecyclePolicy s (ReindexConference s slug)
    ∧ ScopedLifecyclePolicy s (ReindexTalk s talkID) :=
  ⟨reindexConference_scopedPolicy s slug, reindexTalk_scopedPolicy s talkID⟩

/-- Witness for claim C9 at a concrete service, slug and talk id. -/
theorem claim_C9_witness :
    ScopedLifecyclePolicy wService (ReindexConference wService "javazone2024")
    ∧ ScopedLifecyclePolicy wService (ReindexTalk wService "talk-1") :=
  claim_C9_scoped_lifecycle wService "javazone2024" "talk-1"

/-- Witness for claim C10: concrete services with distinct and with
coinciding index names. -/
theorem claim_C10_witness :
    getMappingForIndex wService wService.privateIndex
      = wService.privateIndexMapping
    ∧ getMappingForIndex wService "other" = wService.publicIndexMapping
    ∧ getMappingForIndex wServiceSame wServiceSame.publicIndex
      = wServiceSame.privateIndexMapping :=
  ⟨(claim_C10_mapping_for_index wService "other").1,
   (claim_C10_mapping_for_index wService "other").2.1 (by decide),
   (claim_C10_mapping_for_index wServiceSame "other").2.2 (by decide)⟩

end TalksIndexer
